import Mathlib

/-!
A verification development for the osrswiki Go client (client.go).

The client issues one HTTP GET per operation against the price-data API and
decodes the JSON body into typed results.  We embed the client shallowly:

* JSON documents are the inductive `Json` (numbers are modelled as integers,
  which covers every field type the client decodes into);
* the HTTP layer is an oracle `Http : Request → HttpResult` supplied to each
  operation, so properties can quantify over every possible transport
  behaviour;
* each operation returns a Go-style pair `Option result × Option Err`,
  mirroring the `return nil, err` / `return result, nil` sites of the source;
* `strconv.ParseInt(s, 10, 16)` is embedded as `parseInt16`, including the
  signed 16-bit range check (an out-of-range value is an error, never a
  wrap-around);
* `encoding/json` unmarshalling is embedded per target type: objects are
  walked binding by binding in document order, keys match struct-field tags
  case-insensitively, every duplicate occurrence of a key is decoded (an
  ill-typed occurrence is an error even when a later duplicate would
  overwrite it), a null value leaves the field as it stands, and an absent
  field keeps its zero value.
-/

/-- JSON values.  Numbers are modelled as integers: every numeric field the
client decodes is an integer type, and a fractional number would fail the
decode just as a string would. -/
inductive Json where
  | null
  | bool (b : Bool)
  | num (n : Int)
  | str (s : String)
  | arr (elems : List Json)
  | obj (fields : List (String × Json))

/-- A response body: either bytes that are not valid JSON, or a JSON value. -/
inductive Body where
  | malformed
  | json (j : Json)

/-- The request assembled by `doRequest`: URL, encoded query parameters
(listed in the sorted key order produced by `url.Values.Encode`), and the
`User-Agent` header. -/
structure Request where
  url : String
  query : List (String × String)
  userAgent : String

/-- What the network returns for a request: a transport-level failure, or a
status code together with a body. -/
inductive HttpResult where
  | transportError (msg : String)
  | response (status : Nat) (body : Body)

/-- A transport oracle: the behaviour of `http.Client.Do` plus body reading,
as a function of the request. -/
def Http : Type := Request → HttpResult

/-- The error classes a call can return, mirroring the `fmt.Errorf` sites of
the source. -/
inductive Err where
  | transport (msg : String)
  | status (code : Nat)
  | decode (msg : String)
  | validation (msg : String)
deriving DecidableEq

/-- The client holds only the configured identifying string (the reusable
transport is the oracle parameter of each operation). -/
structure Client where
  userAgent : String

def NewClient (userAgent : String) : Client :=
  { userAgent := userAgent }

def pricesEndpoint : String := "https://prices.runescape.wiki/api/v1"

abbrev World := String

def WorldRegular : World := "osrs"
def WorldDeadman : World := "dmm"
def WorldFreshStart : World := "fsw"

abbrev TimeInterval := String

def FiveMinutes : TimeInterval := "5m"
def OneHour : TimeInterval := "1h"
def SixHours : TimeInterval := "6h"
def TwentyFourHours : TimeInterval := "24h"

/-- Go's `time.Time` as far as the client observes it: whole seconds since
the Unix epoch plus a sub-second nanosecond part. -/
structure GoTime where
  sec : Int
  nsec : Nat
  nsec_lt : nsec < 1000000000

/-- `time.Time.Unix()`: Unix seconds, discarding the sub-second part. -/
def GoTime.unix (t : GoTime) : Int := t.sec

/-- Decimal digit accumulation for `parseInt16`. -/
def digitsToNat (ds : List Char) : Nat :=
  ds.foldl (fun acc d => acc * 10 + (d.toNat - 48)) 0

/-- The digits phase of `strconv.ParseInt(s, 10, 16)`: at least one decimal
digit, and the resulting value must fit in a signed 16-bit integer
(`strconv` reports `ErrRange` otherwise, which the caller treats as
failure). -/
def parseIntDigits (neg : Bool) (ds : List Char) : Option Int :=
  if ds = [] then none
  else if ds.all (fun d => 48 ≤ d.toNat ∧ d.toNat ≤ 57) then
    let v : Int := if neg then -(digitsToNat ds : Int) else (digitsToNat ds : Int)
    if -32768 ≤ v ∧ v ≤ 32767 then some v else none
  else none

/-- `strconv.ParseInt(s, 10, 16)` returning `none` on any error (syntax or
range).  An optional leading sign is accepted; base 10 is fixed, so digit
separators are rejected. -/
def parseInt16 (s : String) : Option Int :=
  match s.data with
  | [] => none
  | c :: rest =>
    if c = '-' then parseIntDigits true rest
    else if c = '+' then parseIntDigits false rest
    else parseIntDigits false (c :: rest)

/-- Decoding a JSON value into a 64-bit signed integer field
(`encoding/json` rejects non-numbers and out-of-range numbers). -/
def decodeInt64 (j : Json) : Except String Int :=
  match j with
  | .num n =>
    if -9223372036854775808 ≤ n ∧ n ≤ 9223372036854775807 then .ok n
    else .error "number out of int64 range"
  | _ => .error "cannot unmarshal value into int64"

/-- Decoding a JSON value into a string field. -/
def decodeStr (j : Json) : Except String String :=
  match j with
  | .str s => .ok s
  | _ => .error "cannot unmarshal value into string"

/-- Decoding a JSON value into a bool field. -/
def decodeBool (j : Json) : Except String Bool :=
  match j with
  | .bool b => .ok b
  | _ => .error "cannot unmarshal value into bool"

/-- ASCII case folding of a key, modelling the folding `encoding/json`
applies when matching object keys against struct-field tags (every key
involved in this client is ASCII). -/
def keyFold (s : String) : String := String.mk (s.data.map Char.toLower)

/-- Whether a JSON object key matches a struct-field tag: `encoding/json`
accepts an exact match or a case-insensitive one.  No two tags of the
structs embedded here coincide up to case, so one folded comparison is
faithful. -/
def keyMatches (key tag : String) : Bool := keyFold key == keyFold tag

/-- Go's object-into-struct loop: every binding is processed in document
order; a key matching no field is ignored, a null value leaves the field
as it stands, any other value must decode and overwrites the field.  An
ill-typed value fails the decode even when a later duplicate binding would
overwrite it. -/
def decodeStructLoop (handlers : List (String × (Json → σ → Except String σ)))
    (st : σ) : List (String × Json) → Except String σ
  | [] => .ok st
  | (k, v) :: rest =>
    match handlers.find? (fun h => keyMatches k h.1) with
    | none => decodeStructLoop handlers st rest
    | some h =>
      match v with
      | .null => decodeStructLoop handlers st rest
      | _ =>
        match h.2 v st with
        | .error m => .error m
        | .ok st2 => decodeStructLoop handlers st2 rest

/-- The `LatestPrice` record of the source (all fields Go `int64`). -/
structure LatestPrice where
  high : Int
  highTime : Int
  low : Int
  lowTime : Int
deriving DecidableEq

/-- The field handlers of the `LatestPrice` struct, keyed by json tag. -/
def latestPriceHandlers :
    List (String × (Json → LatestPrice → Except String LatestPrice)) :=
  [("high", fun v st => (decodeInt64 v).map (fun n => { st with high := n })),
   ("highTime", fun v st => (decodeInt64 v).map (fun n => { st with highTime := n })),
   ("low", fun v st => (decodeInt64 v).map (fun n => { st with low := n })),
   ("lowTime", fun v st => (decodeInt64 v).map (fun n => { st with lowTime := n }))]

/-- Unmarshalling a JSON value into a `LatestPrice` struct. -/
def decodeLatestPrice (j : Json) : Except String LatestPrice :=
  match j with
  | .null => .ok ⟨0, 0, 0, 0⟩
  | .obj fields => decodeStructLoop latestPriceHandlers ⟨0, 0, 0, 0⟩ fields
  | _ => .error "cannot unmarshal value into LatestPrice"

/-- The `PriceData` record of the source (all fields Go `int64`). -/
structure PriceData where
  avgHighPrice : Int
  highPriceVolume : Int
  avgLowPrice : Int
  lowPriceVolume : Int
deriving DecidableEq

/-- The field handlers of the `PriceData` struct, keyed by json tag. -/
def priceDataHandlers :
    List (String × (Json → PriceData → Except String PriceData)) :=
  [("avgHighPrice", fun v st => (decodeInt64 v).map (fun n => { st with avgHighPrice := n })),
   ("highPriceVolume", fun v st => (decodeInt64 v).map (fun n => { st with highPriceVolume := n })),
   ("avgLowPrice", fun v st => (decodeInt64 v).map (fun n => { st with avgLowPrice := n })),
   ("lowPriceVolume", fun v st => (decodeInt64 v).map (fun n => { st with lowPriceVolume := n }))]

/-- Unmarshalling a JSON value into a `PriceData` struct. -/
def decodePriceData (j : Json) : Except String PriceData :=
  match j with
  | .null => .ok ⟨0, 0, 0, 0⟩
  | .obj fields => decodeStructLoop priceDataHandlers ⟨0, 0, 0, 0⟩ fields
  | _ => .error "cannot unmarshal value into PriceData"

/-- The `ItemMapping` record of the source. -/
structure ItemMapping where
  id : Int
  icon : String
  name : String
  examine : String
  members : Bool
  value : Int
  highAlch : Int
  lowAlch : Int
  limit : Int
deriving DecidableEq

/-- The field handlers of the `ItemMapping` struct, keyed by json tag. -/
def itemMappingHandlers :
    List (String × (Json → ItemMapping → Except String ItemMapping)) :=
  [("id", fun v st => (decodeInt64 v).map (fun n => { st with id := n })),
   ("icon", fun v st => (decodeStr v).map (fun x => { st with icon := x })),
   ("name", fun v st => (decodeStr v).map (fun x => { st with name := x })),
   ("examine", fun v st => (decodeStr v).map (fun x => { st with examine := x })),
   ("members", fun v st => (decodeBool v).map (fun x => { st with members := x })),
   ("value", fun v st => (decodeInt64 v).map (fun n => { st with value := n })),
   ("highalch", fun v st => (decodeInt64 v).map (fun n => { st with highAlch := n })),
   ("lowalch", fun v st => (decodeInt64 v).map (fun n => { st with lowAlch := n })),
   ("limit", fun v st => (decodeInt64 v).map (fun n => { st with limit := n }))]

/-- Unmarshalling a JSON value into an `ItemMapping` struct. -/
def decodeItemMapping (j : Json) : Except String ItemMapping :=
  match j with
  | .null => .ok ⟨0, "", "", "", false, 0, 0, 0, 0⟩
  | .obj fields =>
    decodeStructLoop itemMappingHandlers ⟨0, "", "", "", false, 0, 0, 0, 0⟩ fields
  | _ => .error "cannot unmarshal value into ItemMapping"

/-- The `TimeseriesData` record of the source (all fields Go `int64`). -/
structure TimeseriesData where
  timestamp : Int
  avgHighPrice : Int
  avgLowPrice : Int
  highPriceVolume : Int
  lowPriceVolume : Int
deriving DecidableEq

/-- The field handlers of the `TimeseriesData` struct, keyed by json tag. -/
def timeseriesDataHandlers :
    List (String × (Json → TimeseriesData → Except String TimeseriesData)) :=
  [("timestamp", fun v st => (decodeInt64 v).map (fun n => { st with timestamp := n })),
   ("avgHighPrice", fun v st => (decodeInt64 v).map (fun n => { st with avgHighPrice := n })),
   ("avgLowPrice", fun v st => (decodeInt64 v).map (fun n => { st with avgLowPrice := n })),
   ("highPriceVolume", fun v st => (decodeInt64 v).map (fun n => { st with highPriceVolume := n })),
   ("lowPriceVolume", fun v st => (decodeInt64 v).map (fun n => { st with lowPriceVolume := n }))]

/-- Unmarshalling a JSON value into a `TimeseriesData` struct. -/
def decodeTimeseriesData (j : Json) : Except String TimeseriesData :=
  match j with
  | .null => .ok ⟨0, 0, 0, 0, 0⟩
  | .obj fields => decodeStructLoop timeseriesDataHandlers ⟨0, 0, 0, 0, 0⟩ fields
  | _ => .error "cannot unmarshal value into TimeseriesData"

/-- Go map assignment with string keys: an existing key is overwritten in
place, a new key is appended.  Assignment never removes a key. -/
def insertStrEntry (k : String) (v : α) :
    List (String × α) → List (String × α)
  | [] => [(k, v)]
  | (k2, v2) :: rest =>
    if k2 = k then (k, v) :: rest else (k2, v2) :: insertStrEntry k v rest

/-- Unmarshalling a JSON object into an existing `map[string]T` in document
order: every value must decode (the first failure aborts), and each entry
is assigned into the map, later duplicates overwriting earlier ones. -/
def decodeEntriesInto (dec : Json → Except String α)
    (st : List (String × α)) :
    List (String × Json) → Except String (List (String × α))
  | [] => .ok st
  | (k, v) :: rest =>
    match dec v with
    | .error m => .error m
    | .ok a => decodeEntriesInto dec (insertStrEntry k a st) rest

/-- Decoding one `data` value into the current `map[string]T`: a null value
leaves the map as it stands, an object merges its entries into the map,
anything else is a decode error. -/
def envStep (dec : Json → Except String α) (st : List (String × α))
    (v : Json) : Except String (List (String × α)) :=
  match v with
  | .null => .ok st
  | .obj entries => decodeEntriesInto dec st entries
  | _ => .error "cannot unmarshal data into map"

/-- Go's object-into-struct loop specialised to
`struct { Data map[string]T }`: every binding whose key matches the `data`
tag (case-insensitively) is processed in document order through
`envStep`. -/
def envLoop (dec : Json → Except String α)
    (st : List (String × α)) :
    List (String × Json) → Except String (List (String × α))
  | [] => .ok st
  | (k, v) :: rest =>
    if keyMatches k "data" then
      match envStep dec st v with
      | .error m => .error m
      | .ok st2 => envLoop dec st2 rest
    else envLoop dec st rest

/-- Unmarshalling a body into Go's `struct { Data map[string]T }`: the body
must be a JSON object (or null); with no binding matching `data` the map
stays nil (decoded here as no entries). -/
def decodeMapEnvelope (dec : Json → Except String α) :
    Body → Except String (List (String × α))
  | .malformed => .error "invalid JSON"
  | .json .null => .ok []
  | .json (.obj fields) => envLoop dec [] fields
  | .json _ => .error "cannot unmarshal body into struct"

/-- Unmarshalling a list of JSON values into a Go slice element by element,
preserving order. -/
def decodeListWith (dec : Json → Except String α) :
    List Json → Except String (List α)
  | [] => .ok []
  | j :: rest =>
    match dec j with
    | .error m => .error m
    | .ok a =>
      match decodeListWith dec rest with
      | .error m => .error m
      | .ok l => .ok (a :: l)

/-- Decoding one `data` value into the current `[]TimeseriesData` slice:
null leaves the slice as it stands, an array decodes and replaces it,
anything else is a decode error. -/
def tsStep (st : List TimeseriesData) (v : Json) :
    Except String (List TimeseriesData) :=
  match v with
  | .null => .ok st
  | .arr elems => decodeListWith decodeTimeseriesData elems
  | _ => .error "cannot unmarshal data into slice"

/-- Go's object-into-struct loop specialised to
`struct { Data []TimeseriesData }`: every binding whose key matches the
`data` tag (case-insensitively) is processed in document order through
`tsStep`. -/
def tsLoop (st : List TimeseriesData) :
    List (String × Json) → Except String (List TimeseriesData)
  | [] => .ok st
  | (k, v) :: rest =>
    if keyMatches k "data" then
      match tsStep st v with
      | .error m => .error m
      | .ok l => tsLoop l rest
    else tsLoop st rest

/-- Unmarshalling a body into Go's `struct { Data []TimeseriesData }`: the
body must be a JSON object (or null); with no binding matching `data` the
slice stays nil. -/
def decodeTimeseriesEnvelope : Body → Except String (List TimeseriesData)
  | .malformed => .error "invalid JSON"
  | .json .null => .ok []
  | .json (.obj fields) => tsLoop [] fields
  | .json _ => .error "cannot unmarshal body into struct"

/-- Unmarshalling a body into Go's bare `[]ItemMapping`: the top level must
itself be a JSON array (or null). -/
def decodeMappingBody : Body → Except String (List ItemMapping)
  | .malformed => .error "invalid JSON"
  | .json .null => .ok []
  | .json (.arr elems) => decodeListWith decodeItemMapping elems
  | .json _ => .error "cannot unmarshal body into slice"

/-- Map insertion with Go semantics: assigning to an existing key replaces
its value in place, otherwise the binding is appended. -/
def mapInsert (k : Int) (v : α) : List (Int × α) → List (Int × α)
  | [] => [(k, v)]
  | (k2, v2) :: rest =>
    if k2 = k then (k, v) :: rest else (k2, v2) :: mapInsert k v rest

/-- The key-conversion loop shared by `LatestPrices` and `PriceData`: each
string key is parsed with `strconv.ParseInt(key, 10, 16)`; the first parse
failure aborts the whole call with an error, discarding the partially built
map. -/
def entriesToMapAux (acc : List (Int × α)) :
    List (String × α) → Except String (List (Int × α))
  | [] => .ok acc
  | (k, v) :: rest =>
    match parseInt16 k with
    | none => .error ("error parsing item ID: " ++ k)
    | some id => entriesToMapAux (mapInsert id v acc) rest

def entriesToMap (entries : List (String × α)) : Except String (List (Int × α)) :=
  entriesToMapAux [] entries

/-- The request that `doRequest` assembles from a URL and query map,
carrying the client's configured `User-Agent`. -/
def buildRequest (c : Client) (url : String) (query : List (String × String)) :
    Request :=
  { url := url, query := query, userAgent := c.userAgent }

/-- `Client.doRequest`: build the request, run it through the transport,
require status 200 exactly, and hand back the body. -/
def doRequest (c : Client) (http : Http) (url : String)
    (query : List (String × String)) : Except Err Body :=
  match http (buildRequest c url query) with
  | .transportError m => .error (.transport ("sending request: " ++ m))
  | .response code body =>
    if code = 200 then .ok body else .error (.status code)

def latestPricesURL (world : World) : String :=
  pricesEndpoint ++ "/" ++ world ++ "/latest"

/-- The query map built by `LatestPrices`: the `id` parameter is present
exactly when at least one item identifier was given, holding the decimal
renderings joined by commas. -/
def latestPricesQuery (itemIDs : List Int) : List (String × String) :=
  if itemIDs.length > 0 then
    [("id", String.intercalate "," (itemIDs.map (fun id => toString id)))]
  else []

/-- `Client.LatestPrices`, returned as Go's `(map, error)` pair. -/
def latestPrices (c : Client) (http : Http) (world : World)
    (itemIDs : List Int) : Option (List (Int × LatestPrice)) × Option Err :=
  match doRequest c http (latestPricesURL world) (latestPricesQuery itemIDs) with
  | .error e => (none, some e)
  | .ok body =>
    match decodeMapEnvelope decodeLatestPrice body with
    | .error m => (none, some (.decode ("error unmarshaling response: " ++ m)))
    | .ok entries =>
      match entriesToMap entries with
      | .error m => (none, some (.decode m))
      | .ok result => (some result, none)

def itemMappingURL (world : World) : String :=
  pricesEndpoint ++ "/" ++ world ++ "/" ++ "mapping"

/-- `Client.ItemMapping`, returned as Go's `(slice, error)` pair. -/
def itemMapping (c : Client) (http : Http) (world : World) :
    Option (List ItemMapping) × Option Err :=
  match doRequest c http (itemMappingURL world) [] with
  | .error e => (none, some e)
  | .ok body =>
    match decodeMappingBody body with
    | .error m => (none, some (.decode ("error unmarshaling response: " ++ m)))
    | .ok items => (some items, none)

def validationMsg : String := "only 5m and 1h intervals are supported"

def priceDataURL (world : World) (interval : TimeInterval) : String :=
  pricesEndpoint ++ "/" ++ world ++ "/" ++ interval

/-- The query map built by `PriceData`: a supplied timestamp becomes a
`timestamp` parameter rendered from `time.Time.Unix()`. -/
def priceDataQuery : Option GoTime → List (String × String)
  | none => []
  | some t => [("timestamp", toString t.unix)]

/-- `Client.PriceData`, returned as Go's `(map, error)` pair.  Intervals
other than `5m` and `1h` are rejected before the transport is consulted. -/
def priceData (c : Client) (http : Http) (world : World)
    (interval : TimeInterval) (timestamp : Option GoTime) :
    Option (List (Int × PriceData)) × Option Err :=
  if interval ≠ FiveMinutes ∧ interval ≠ OneHour then
    (none, some (.validation validationMsg))
  else
    match doRequest c http (priceDataURL world interval) (priceDataQuery timestamp) with
    | .error e => (none, some e)
    | .ok body =>
      match decodeMapEnvelope decodePriceData body with
      | .error m => (none, some (.decode ("error unmarshaling response: " ++ m)))
      | .ok entries =>
        match entriesToMap entries with
        | .error m => (none, some (.decode m))
        | .ok result => (some result, none)

def timeseriesURL (world : World) : String :=
  pricesEndpoint ++ "/" ++ world ++ "/timeseries"

/-- The query map built by `Timeseries`, in the sorted key order that
`url.Values.Encode` emits: the decimal item identifier and the interval
token passed through verbatim. -/
def timeseriesQuery (timestep : TimeInterval) (itemID : Int) :
    List (String × String) :=
  [("id", toString itemID), ("timestep", timestep)]

/-- `Client.Timeseries`, returned as Go's `(slice, error)` pair.  No local
validation of the timestep token is performed. -/
def timeseries (c : Client) (http : Http) (world : World)
    (timestep : TimeInterval) (itemID : Int) :
    Option (List TimeseriesData) × Option Err :=
  match doRequest c http (timeseriesURL world) (timeseriesQuery timestep itemID) with
  | .error e => (none, some e)
  | .ok body =>
    match decodeTimeseriesEnvelope body with
    | .error m => (none, some (.decode ("error unmarshaling response: " ++ m)))
    | .ok pts => (some pts, none)

/-! ## Helper lemmas -/

theorem doRequest_cases (c : Client) (http : Http) (u : String)
    (q : List (String × String)) :
    (∃ m, doRequest c http u q = .error (.transport m)) ∨
    (∃ cd, cd ≠ 200 ∧ doRequest c http u q = .error (.status cd)) ∨
    (∃ b, http (buildRequest c u q) = .response 200 b ∧
      doRequest c http u q = .ok b) := by
  unfold doRequest
  cases hr : http (buildRequest c u q) with
  | transportError m => exact Or.inl ⟨_, rfl⟩
  | response code body =>
    by_cases h : code = 200
    · subst h
      exact Or.inr (Or.inr ⟨body, rfl, by simp⟩)
    · exact Or.inr (Or.inl ⟨code, h, by simp [h]⟩)

theorem latestPrices_classes (c : Client) (http : Http) (world : World)
    (ids : List Int) :
    (∃ v, latestPrices c http world ids = (some v, none)) ∨
    (∃ m, latestPrices c http world ids = (none, some (.transport m))) ∨
    (∃ cd, latestPrices c http world ids = (none, some (.status cd))) ∨
    (∃ m, latestPrices c http world ids = (none, some (.decode m))) := by
  unfold latestPrices
  rcases doRequest_cases c http (latestPricesURL world) (latestPricesQuery ids) with
    ⟨m, hm⟩ | ⟨cd, _, hcd⟩ | ⟨b, _, hb⟩
  · rw [hm]
    exact Or.inr (Or.inl ⟨m, rfl⟩)
  · rw [hcd]
    exact Or.inr (Or.inr (Or.inl ⟨cd, rfl⟩))
  · rw [hb]
    cases hdec : decodeMapEnvelope decodeLatestPrice b with
    | error m =>
      refine Or.inr (Or.inr (Or.inr ⟨"error unmarshaling response: " ++ m, ?_⟩))
      simp [hdec]
    | ok entries =>
      cases hmap : entriesToMap entries with
      | error m =>
        refine Or.inr (Or.inr (Or.inr ⟨m, ?_⟩))
        simp [hdec, hmap]
      | ok result =>
        refine Or.inl ⟨result, ?_⟩
        simp [hdec, hmap]

theorem itemMapping_classes (c : Client) (http : Http) (world : World) :
    (∃ v, itemMapping c http world = (some v, none)) ∨
    (∃ m, itemMapping c http world = (none, some (.transport m))) ∨
    (∃ cd, itemMapping c http world = (none, some (.status cd))) ∨
    (∃ m, itemMapping c http world = (none, some (.decode m))) := by
  unfold itemMapping
  rcases doRequest_cases c http (itemMappingURL world) [] with
    ⟨m, hm⟩ | ⟨cd, _, hcd⟩ | ⟨b, _, hb⟩
  · rw [hm]
    exact Or.inr (Or.inl ⟨m, rfl⟩)
  · rw [hcd]
    exact Or.inr (Or.inr (Or.inl ⟨cd, rfl⟩))
  · rw [hb]
    cases hdec : decodeMappingBody b with
    | error m =>
      refine Or.inr (Or.inr (Or.inr ⟨"error unmarshaling response: " ++ m, ?_⟩))
      simp [hdec]
    | ok items =>
      refine Or.inl ⟨items, ?_⟩
      simp [hdec]

theorem timeseries_classes (c : Client) (http : Http) (world : World)
    (timestep : TimeInterval) (itemID : Int) :
    (∃ v, timeseries c http world timestep itemID = (some v, none)) ∨
    (∃ m, timeseries c http world timestep itemID = (none, some (.transport m))) ∨
    (∃ cd, timeseries c http world timestep itemID = (none, some (.status cd))) ∨
    (∃ m, timeseries c http world timestep itemID = (none, some (.decode m))) := by
  unfold timeseries
  rcases doRequest_cases c http (timeseriesURL world) (timeseriesQuery timestep itemID) with
    ⟨m, hm⟩ | ⟨cd, _, hcd⟩ | ⟨b, _, hb⟩
  · rw [hm]
    exact Or.inr (Or.inl ⟨m, rfl⟩)
  · rw [hcd]
    exact Or.inr (Or.inr (Or.inl ⟨cd, rfl⟩))
  · rw [hb]
    cases hdec : decodeTimeseriesEnvelope b with
    | error m =>
      refine Or.inr (Or.inr (Or.inr ⟨"error unmarshaling response: " ++ m, ?_⟩))
      simp [hdec]
    | ok pts =>
      refine Or.inl ⟨pts, ?_⟩
      simp [hdec]

theorem priceData_valid_classes (c : Client) (http : Http) (world : World)
    (interval : TimeInterval) (ts : Option GoTime)
    (hi : interval = FiveMinutes ∨ interval = OneHour) :
    (∃ v, priceData c http world interval ts = (some v, none)) ∨
    (∃ m, priceData c http world interval ts = (none, some (.transport m))) ∨
    (∃ cd, priceData c http world interval ts = (none, some (.status cd))) ∨
    (∃ m, priceData c http world interval ts = (none, some (.decode m))) := by
  have hcond : ¬(interval ≠ FiveMinutes ∧ interval ≠ OneHour) := by
    rcases hi with h | h <;> simp [h, FiveMinutes, OneHour]
  unfold priceData
  rw [if_neg hcond]
  rcases doRequest_cases c http (priceDataURL world interval) (priceDataQuery ts) with
    ⟨m, hm⟩ | ⟨cd, _, hcd⟩ | ⟨b, _, hb⟩
  · rw [hm]
    exact Or.inr (Or.inl ⟨m, rfl⟩)
  · rw [hcd]
    exact Or.inr (Or.inr (Or.inl ⟨cd, rfl⟩))
  · rw [hb]
    cases hdec : decodeMapEnvelope decodePriceData b with
    | error m =>
      refine Or.inr (Or.inr (Or.inr ⟨"error unmarshaling response: " ++ m, ?_⟩))
      simp [hdec]
    | ok entries =>
      cases hmap : entriesToMap entries with
      | error m =>
        refine Or.inr (Or.inr (Or.inr ⟨m, ?_⟩))
        simp [hdec, hmap]
      | ok result =>
        refine Or.inl ⟨result, ?_⟩
        simp [hdec, hmap]

theorem valid_interval_cond {interval : TimeInterval}
    (hi : interval = "5m" ∨ interval = "1h") :
    ¬(interval ≠ FiveMinutes ∧ interval ≠ OneHour) := by
  rcases hi with h | h <;> simp [h, FiveMinutes, OneHour]

/-! ## Claim theorems -/

/-- C2: for every interval token other than `5m` and `1h` (in particular
`6h` and `24h`), `PriceData` returns the local validation error, and it
does so for every transport oracle alike — the result does not depend on
the transport, so no HTTP request is sent; for `5m` and `1h` no validation
error ever occurs. -/
theorem C2_priceData_interval_validation (c : Client) (http : Http)
    (world : World) (interval : TimeInterval) (ts : Option GoTime) :
    (interval ≠ "5m" → interval ≠ "1h" →
      priceData c http world interval ts
        = (none, some (.validation validationMsg))) ∧
    ((interval = "5m" ∨ interval = "1h") →
      ∀ m, (priceData c http world interval ts).2 ≠ some (.validation m)) := by
  constructor
  · intro h5 h1
    unfold priceData
    rw [if_pos ⟨h5, h1⟩]
  · intro hi m
    rcases priceData_valid_classes c http world interval ts hi with
      ⟨v, hv⟩ | ⟨m2, hm⟩ | ⟨cd, hcd⟩ | ⟨m2, hm⟩
    · simp [hv]
    · simp [hm]
    · simp [hcd]
    · simp [hm]

/-- C2 witness: interval `6h` is rejected with the validation error without
consulting the (here: unreachable-failure) transport, while `5m` never
produces a validation error. -/
theorem C2_priceData_interval_validation_witness :
    priceData (NewClient "w2") (fun _ => HttpResult.transportError "down")
        "osrs" "6h" none = (none, some (.validation validationMsg)) ∧
    (priceData (NewClient "w2") (fun _ => HttpResult.transportError "down")
        "osrs" "5m" none).2 ≠ some (.validation validationMsg) := by
  refine ⟨?_, ?_⟩
  · exact (C2_priceData_interval_validation (NewClient "w2")
      (fun _ => HttpResult.transportError "down") "osrs" "6h" none).1
      (by decide) (by decide)
  · exact (C2_priceData_interval_validation (NewClient "w2")
      (fun _ => HttpResult.transportError "down") "osrs" "5m" none).2
      (Or.inl rfl) validationMsg

/-- C5: when the transport answers any request with a status code other
than 200, every operation fails with the unexpected-status error carrying
that code, and the body is not decoded as the success schema (the result
pair is exactly `(none, status code)`, not a decode outcome).  The
`Timeseries` conjunct holds for every timestep token; only the `PriceData`
conjunct is guarded by its own interval validation. -/
theorem C5_non200_status_error (c : Client) (http : Http) (code : Nat)
    (b : Body) (world : World) (ids : List Int) (interval : TimeInterval)
    (ts : Option GoTime) (timestep : TimeInterval) (itemID : Int) :
    (∀ r, http r = .response code b) → code ≠ 200 →
    latestPrices c http world ids = (none, some (.status code)) ∧
    itemMapping c http world = (none, some (.status code)) ∧
    ((interval = "5m" ∨ interval = "1h") →
      priceData c http world interval ts = (none, some (.status code))) ∧
    timeseries c http world timestep itemID = (none, some (.status code)) := by
  intro hh hc
  have hdo : ∀ u q, doRequest c http u q = .error (.status code) := by
    intro u q
    unfold doRequest
    rw [hh]
    simp [hc]
  refine ⟨?_, ?_, ?_, ?_⟩
  · unfold latestPrices
    rw [hdo]
  · unfold itemMapping
    rw [hdo]
  · intro hi
    unfold priceData
    rw [if_neg (valid_interval_cond hi), hdo]
  · unfold timeseries
    rw [hdo]

/-- C5 witness: a constant 503 response, carrying a body that would decode
fine as the success schema, makes all four operations fail with the status
error carrying 503 — including a `Timeseries` call with the `6h` timestep,
which `PriceData` would reject but `Timeseries` forwards. -/
theorem C5_non200_status_error_witness :
    latestPrices (NewClient "w5")
        (fun _ => HttpResult.response 503 (Body.json (Json.obj [("data", Json.obj [])])))
        "osrs" [] = (none, some (.status 503)) ∧
    itemMapping (NewClient "w5")
        (fun _ => HttpResult.response 503 (Body.json (Json.obj [("data", Json.obj [])])))
        "osrs" = (none, some (.status 503)) ∧
    priceData (NewClient "w5")
        (fun _ => HttpResult.response 503 (Body.json (Json.obj [("data", Json.obj [])])))
        "osrs" "5m" none = (none, some (.status 503)) ∧
    timeseries (NewClient "w5")
        (fun _ => HttpResult.response 503 (Body.json (Json.obj [("data", Json.obj [])])))
        "osrs" "6h" 4151 = (none, some (.status 503)) := by
  have h := C5_non200_status_error (NewClient "w5")
    (fun _ => HttpResult.response 503 (Body.json (Json.obj [("data", Json.obj [])])))
    503 (Body.json (Json.obj [("data", Json.obj [])])) "osrs" [] "5m" none
    "6h" 4151 (fun _ => rfl) (by decide)
  exact ⟨h.1, h.2.1, h.2.2.1 (Or.inl rfl), h.2.2.2⟩

/-- C6: `Timeseries` performs no local validation: for every world, every
timestep token and every item identifier it builds
`{base}/{world}/timeseries` with `id` the decimal item identifier and
`timestep` the token verbatim, never returns a validation error, and its
outcome depends on the transport only through that one request. -/
theorem C6_timeseries_no_interval_validation (c : Client) (http : Http)
    (world : World) (timestep : TimeInterval) (itemID : Int) :
    timeseriesURL world = pricesEndpoint ++ "/" ++ world ++ "/timeseries" ∧
    timeseriesQuery timestep itemID
      = [("id", toString itemID), ("timestep", timestep)] ∧
    (∀ m, (timeseries c http world timestep itemID).2 ≠ some (.validation m)) ∧
    (∀ http2 : Http,
      http (buildRequest c (timeseriesURL world) (timeseriesQuery timestep itemID))
        = http2 (buildRequest c (timeseriesURL world) (timeseriesQuery timestep itemID)) →
      timeseries c http world timestep itemID
        = timeseries c http2 world timestep itemID) := by
  refine ⟨rfl, rfl, ?_, ?_⟩
  · intro m
    rcases timeseries_classes c http world timestep itemID with
      ⟨v, hv⟩ | ⟨m2, hm⟩ | ⟨cd, hcd⟩ | ⟨m2, hm⟩
    · simp [hv]
    · simp [hm]
    · simp [hcd]
    · simp [hm]
  · intro http2 hagree
    unfold timeseries doRequest
    rw [hagree]

/-- C6 witness: at timestep `24h` and item 4151, the query is built
verbatim, no validation error is produced, and a transport agreeing with
itself at the one request gives the same outcome. -/
theorem C6_timeseries_no_interval_validation_witness :
    timeseriesQuery "24h" 4151 = [("id", "4151"), ("timestep", "24h")] ∧
    (timeseries (NewClient "w6") (fun _ => HttpResult.transportError "net down")
        "osrs" "24h" 4151).2 ≠ some (.validation validationMsg) ∧
    timeseries (NewClient "w6") (fun _ => HttpResult.transportError "net down")
        "osrs" "24h" 4151
      = timeseries (NewClient "w6") (fun _ => HttpResult.transportError "net down")
        "osrs" "24h" 4151 := by
  have h := C6_timeseries_no_interval_validation (NewClient "w6")
    (fun _ => HttpResult.transportError "net down") "osrs" "24h" 4151
  exact ⟨h.2.1, h.2.2.1 validationMsg,
    h.2.2.2 (fun _ => HttpResult.transportError "net down") rfl⟩

/-- C8: whenever any of the four operations returns an error, it returns no
data at all: every result pair has a `none` component, so an error is never
accompanied by a partial mapping or sequence. -/
theorem C8_no_partial_result (c : Client) (http : Http) (world : World)
    (ids : List Int) (interval : TimeInterval) (ts : Option GoTime)
    (itemID : Int) :
    ((latestPrices c http world ids).1 = none ∨
      (latestPrices c http world ids).2 = none) ∧
    ((itemMapping c http world).1 = none ∨
      (itemMapping c http world).2 = none) ∧
    ((priceData c http world interval ts).1 = none ∨
      (priceData c http world interval ts).2 = none) ∧
    ((timeseries c http world interval itemID).1 = none ∨
      (timeseries c http world interval itemID).2 = none) := by
  refine ⟨?_, ?_, ?_, ?_⟩
  · rcases latestPrices_classes c http world ids with
      ⟨v, hv⟩ | ⟨m, hm⟩ | ⟨cd, hcd⟩ | ⟨m, hm⟩
    · simp [hv]
    · simp [hm]
    · simp [hcd]
    · simp [hm]
  · rcases itemMapping_classes c http world with
      ⟨v, hv⟩ | ⟨m, hm⟩ | ⟨cd, hcd⟩ | ⟨m, hm⟩
    · simp [hv]
    · simp [hm]
    · simp [hcd]
    · simp [hm]
  · by_cases hi : interval = "5m" ∨ interval = "1h"
    · rcases priceData_valid_classes c http world interval ts hi with
        ⟨v, hv⟩ | ⟨m, hm⟩ | ⟨cd, hcd⟩ | ⟨m, hm⟩
      · simp [hv]
      · simp [hm]
      · simp [hcd]
      · simp [hm]
    · push_neg at hi
      unfold priceData
      rw [if_pos ⟨by simpa using hi.1, by simpa using hi.2⟩]
      simp
  · rcases timeseries_classes c http world interval itemID with
      ⟨v, hv⟩ | ⟨m, hm⟩ | ⟨cd, hcd⟩ | ⟨m, hm⟩
    · simp [hv]
    · simp [hm]
    · simp [hcd]
    · simp [hm]

/-- C10: no operation validates the world token: any string world is
interpolated verbatim into the request path, and no operation returns a
local validation error for it (`PriceData` restricted to its valid
intervals, whose check does not involve the world). -/
theorem C10_no_world_validation (c : Client) (http : Http) (world : World)
    (ids : List Int) (interval : TimeInterval) (ts : Option GoTime)
    (itemID : Int) (m : String) :
    latestPricesURL world = pricesEndpoint ++ "/" ++ world ++ "/latest" ∧
    itemMappingURL world = pricesEndpoint ++ "/" ++ world ++ "/" ++ "mapping" ∧
    priceDataURL world interval = pricesEndpoint ++ "/" ++ world ++ "/" ++ interval ∧
    timeseriesURL world = pricesEndpoint ++ "/" ++ world ++ "/timeseries" ∧
    (latestPrices c http world ids).2 ≠ some (.validation m) ∧
    (itemMapping c http world).2 ≠ some (.validation m) ∧
    (timeseries c http world interval itemID).2 ≠ some (.validation m) ∧
    ((interval = "5m" ∨ interval = "1h") →
      (priceData c http world interval ts).2 ≠ some (.validation m)) := by
  refine ⟨rfl, rfl, rfl, rfl, ?_, ?_, ?_, ?_⟩
  · rcases latestPrices_classes c http world ids with
      ⟨v, hv⟩ | ⟨m2, hm⟩ | ⟨cd, hcd⟩ | ⟨m2, hm⟩
    · simp [hv]
    · simp [hm]
    · simp [hcd]
    · simp [hm]
  · rcases itemMapping_classes c http world with
      ⟨v, hv⟩ | ⟨m2, hm⟩ | ⟨cd, hcd⟩ | ⟨m2, hm⟩
    · simp [hv]
    · simp [hm]
    · simp [hcd]
    · simp [hm]
  · rcases timeseries_classes c http world interval itemID with
      ⟨v, hv⟩ | ⟨m2, hm⟩ | ⟨cd, hcd⟩ | ⟨m2, hm⟩
    · simp [hv]
    · simp [hm]
    · simp [hcd]
    · simp [hm]
  · intro hi
    rcases priceData_valid_classes c http world interval ts hi with
      ⟨v, hv⟩ | ⟨m2, hm⟩ | ⟨cd, hcd⟩ | ⟨m2, hm⟩
    · simp [hv]
    · simp [hm]
    · simp [hcd]
    · simp [hm]

/-- C10 witness: the world token `middleearth`, outside the known
enumeration, is interpolated verbatim into all four paths and triggers no
validation error. -/
theorem C10_no_world_validation_witness :
    latestPricesURL "middleearth"
      = "https://prices.runescape.wiki/api/v1/middleearth/latest" ∧
    (latestPrices (NewClient "w10") (fun _ => HttpResult.transportError "nope")
        "middleearth" []).2 ≠ some (.validation validationMsg) ∧
    (priceData (NewClient "w10") (fun _ => HttpResult.transportError "nope")
        "middleearth" "1h" none).2 ≠ some (.validation validationMsg) := by
  have h := C10_no_world_validation (NewClient "w10")
    (fun _ => HttpResult.transportError "nope") "middleearth" [] "1h" none
    4151 validationMsg
  refine ⟨?_, h.2.2.2.2.1, h.2.2.2.2.2.2.2 (Or.inr rfl)⟩
  rw [h.1]
  rfl

/-- C3: `LatestPrices` builds `{base}/{world}/latest`; an empty identifier
list omits the `id` parameter entirely, a non-empty list produces a single
`id` parameter holding the comma-joined decimal renderings in argument
order (for example `[4151, 2]` gives `id=4151,2`), and the call consults
the transport only at that request. -/
theorem C3_latest_url_and_id_query (c : Client) (http http2 : Http)
    (world : World) (ids : List Int) :
    latestPricesURL world = pricesEndpoint ++ "/" ++ world ++ "/latest" ∧
    latestPricesQuery [] = [] ∧
    (ids ≠ [] → latestPricesQuery ids
      = [("id", String.intercalate "," (ids.map (fun i => toString i)))]) ∧
    latestPricesQuery [4151, 2] = [("id", "4151,2")] ∧
    (http (buildRequest c (latestPricesURL world) (latestPricesQuery ids))
        = http2 (buildRequest c (latestPricesURL world) (latestPricesQuery ids)) →
      latestPrices c http world ids = latestPrices c http2 world ids) := by
  refine ⟨rfl, rfl, ?_, by decide, ?_⟩
  · intro hne
    unfold latestPricesQuery
    rw [if_pos]
    simpa using List.length_pos.mpr hne
  · intro hagree
    unfold latestPrices doRequest
    rw [hagree]

/-- C3 witness: with identifiers `[4151, 2]` the `id` parameter is
`4151,2`, with none it is absent, and a transport agreeing at the built
request yields the same call outcome. -/
theorem C3_latest_url_and_id_query_witness :
    latestPricesQuery [4151, 2] = [("id", "4151,2")] ∧
    latestPricesQuery [] = [] ∧
    latestPrices (NewClient "w3") (fun _ => HttpResult.transportError "io")
        "osrs" [4151, 2]
      = latestPrices (NewClient "w3") (fun _ => HttpResult.transportError "io")
        "osrs" [4151, 2] := by
  have h := C3_latest_url_and_id_query (NewClient "w3")
    (fun _ => HttpResult.transportError "io")
    (fun _ => HttpResult.transportError "io") "osrs" [4151, 2]
  exact ⟨h.2.2.1 (by decide), h.2.1, h.2.2.2.2 rfl⟩

/-- C4: `ItemMapping` decodes the body as a bare top-level JSON array,
preserving the server's element order, and fails on an object body;
`LatestPrices`, `PriceData` and `Timeseries` decode from under a top-level
`data` key and fail on a bare-array body.  The concrete conjunct replays
the spec's end-to-end envelope scenario. -/
theorem C4_envelope_shapes (c : Client) (http : Http) (world : World)
    (ids : List Int) (interval : TimeInterval) (ts : Option GoTime)
    (itemID : Int) (elems : List Json) (ms : List ItemMapping)
    (fields : List (String × Json)) (j1 j2 : Json) (m1 m2 : ItemMapping) :
    (http (buildRequest c (itemMappingURL world) [])
        = .response 200 (.json (.arr elems)) →
      decodeListWith decodeItemMapping elems = .ok ms →
      itemMapping c http world = (some ms, none)) ∧
    (decodeItemMapping j1 = .ok m1 → decodeItemMapping j2 = .ok m2 →
      decodeListWith decodeItemMapping [j1, j2] = .ok [m1, m2]) ∧
    (http (buildRequest c (itemMappingURL world) [])
        = .response 200 (.json (.obj fields)) →
      ∃ m, itemMapping c http world = (none, some (.decode m))) ∧
    (http (buildRequest c (latestPricesURL world) (latestPricesQuery ids))
        = .response 200 (.json (.arr elems)) →
      ∃ m, latestPrices c http world ids = (none, some (.decode m))) ∧
    ((interval = "5m" ∨ interval = "1h") →
      http (buildRequest c (priceDataURL world interval) (priceDataQuery ts))
        = .response 200 (.json (.arr elems)) →
      ∃ m, priceData c http world interval ts = (none, some (.decode m))) ∧
    (http (buildRequest c (timeseriesURL world) (timeseriesQuery interval itemID))
        = .response 200 (.json (.arr elems)) →
      ∃ m, timeseries c http world interval itemID = (none, some (.decode m))) ∧
    latestPrices (NewClient "agent")
        (fun _ => HttpResult.response 200 (Body.json (Json.obj [("data", Json.obj [("4151",
          Json.obj [("high", Json.num 1000), ("highTime", Json.num 1700000000),
                    ("low", Json.num 950), ("lowTime", Json.num 1700000100)])])])))
        "osrs" [4151]
      = (some [(4151, ⟨1000, 1700000000, 950, 1700000100⟩)], none) := by
  refine ⟨?_, ?_, ?_, ?_, ?_, ?_, by decide⟩
  · intro hhttp hdecl
    unfold itemMapping doRequest
    rw [hhttp]
    simp [decodeMappingBody, hdecl]
  · intro h1 h2
    simp [decodeListWith, h1, h2]
  · intro hhttp
    unfold itemMapping doRequest
    rw [hhttp]
    simp [decodeMappingBody]
  · intro hhttp
    unfold latestPrices doRequest
    rw [hhttp]
    simp [decodeMapEnvelope]
  · intro hi hhttp
    unfold priceData doRequest
    rw [if_neg (valid_interval_cond hi), hhttp]
    simp [decodeMapEnvelope]
  · intro hhttp
    unfold timeseries doRequest
    rw [hhttp]
    simp [decodeTimeseriesEnvelope]

/-- C4 witness: a stub returning a bare two-object array makes
`ItemMapping` return those two records in order; a record keyed `"ID"`
decodes into the `id` field by case-insensitive tag matching, as
`encoding/json` does; and the same bare array makes `LatestPrices` fail
with a decode error. -/
theorem C4_envelope_shapes_witness :
    itemMapping (NewClient "w4")
        (fun _ => HttpResult.response 200 (Body.json (Json.arr
          [Json.obj [("id", Json.num 2), ("name", Json.str "Cannonball")],
           Json.obj [("id", Json.num 6), ("name", Json.str "Cannon base")]])))
        "osrs"
      = (some [⟨2, "", "Cannonball", "", false, 0, 0, 0, 0⟩,
               ⟨6, "", "Cannon base", "", false, 0, 0, 0, 0⟩], none) ∧
    itemMapping (NewClient "w4")
        (fun _ => HttpResult.response 200 (Body.json (Json.arr
          [Json.obj [("ID", Json.num 5)]])))
        "osrs"
      = (some [⟨5, "", "", "", false, 0, 0, 0, 0⟩], none) ∧
    (∃ m, latestPrices (NewClient "w4")
        (fun _ => HttpResult.response 200 (Body.json (Json.arr
          [Json.obj [("id", Json.num 2), ("name", Json.str "Cannonball")],
           Json.obj [("id", Json.num 6), ("name", Json.str "Cannon base")]])))
        "osrs" [] = (none, some (.decode m))) := by
  have h := C4_envelope_shapes (NewClient "w4")
    (fun _ => HttpResult.response 200 (Body.json (Json.arr
      [Json.obj [("id", Json.num 2), ("name", Json.str "Cannonball")],
       Json.obj [("id", Json.num 6), ("name", Json.str "Cannon base")]])))
    "osrs" [] "5m" none 4151
    [Json.obj [("id", Json.num 2), ("name", Json.str "Cannonball")],
     Json.obj [("id", Json.num 6), ("name", Json.str "Cannon base")]]
    [⟨2, "", "Cannonball", "", false, 0, 0, 0, 0⟩,
     ⟨6, "", "Cannon base", "", false, 0, 0, 0, 0⟩]
    [] Json.null Json.null ⟨0, "", "", "", false, 0, 0, 0, 0⟩
    ⟨0, "", "", "", false, 0, 0, 0, 0⟩
  have h2 := C4_envelope_shapes (NewClient "w4")
    (fun _ => HttpResult.response 200 (Body.json (Json.arr
      [Json.obj [("ID", Json.num 5)]])))
    "osrs" [] "5m" none 4151
    [Json.obj [("ID", Json.num 5)]]
    [⟨5, "", "", "", false, 0, 0, 0, 0⟩]
    [] Json.null Json.null ⟨0, "", "", "", false, 0, 0, 0, 0⟩
    ⟨0, "", "", "", false, 0, 0, 0, 0⟩
  exact ⟨h.1 rfl rfl, h2.1 rfl rfl, h.2.2.2.1 rfl⟩

/-- C7: for a valid interval, `PriceData` builds `{base}/{world}/{interval}`;
a supplied timestamp becomes a `timestamp` parameter holding the Unix
seconds of the time (independent of its sub-second part), an absent
timestamp adds no parameter, and the call consults the transport only at
that request. -/
theorem C7_priceData_url_and_timestamp (c : Client) (http http2 : Http)
    (world : World) (interval : TimeInterval) (t : GoTime)
    (ts : Option GoTime) (sec : Int) (n1 n2 : Nat) :
    (h1 : n1 < 1000000000) → (h2 : n2 < 1000000000) →
    (interval = "5m" ∨ interval = "1h") →
    priceDataURL world interval = pricesEndpoint ++ "/" ++ world ++ "/" ++ interval ∧
    priceDataQuery none = [] ∧
    priceDataQuery (some t) = [("timestamp", toString t.unix)] ∧
    priceDataQuery (some ⟨sec, n1, by assumption⟩)
      = priceDataQuery (some ⟨sec, n2, by assumption⟩) ∧
    (http (buildRequest c (priceDataURL world interval) (priceDataQuery ts))
        = http2 (buildRequest c (priceDataURL world interval) (priceDataQuery ts)) →
      priceData c http world interval ts = priceData c http2 world interval ts) := by
  intro h1 h2 hi
  refine ⟨rfl, rfl, rfl, rfl, ?_⟩
  intro hagree
  unfold priceData doRequest
  rw [if_neg (valid_interval_cond hi), if_neg (valid_interval_cond hi), hagree]

/-- C7 witness: at interval `5m`, a timestamp of 1700000000 seconds (with
distinct sub-second parts) yields `timestamp=1700000000`, no timestamp
yields no parameter, and two transports agreeing at the request agree on
the call. -/
theorem C7_priceData_url_and_timestamp_witness :
    priceDataURL "osrs" "5m" = "https://prices.runescape.wiki/api/v1/osrs/5m" ∧
    priceDataQuery none = [] ∧
    priceDataQuery (some ⟨1700000000, 5, by decide⟩)
      = [("timestamp", "1700000000")] ∧
    priceDataQuery (some ⟨1700000000, 5, by decide⟩)
      = priceDataQuery (some ⟨1700000000, 999999999, by decide⟩) ∧
    priceData (NewClient "w7") (fun _ => HttpResult.transportError "io")
        "osrs" "5m" (some ⟨1700000000, 5, by decide⟩)
      = priceData (NewClient "w7") (fun _ => HttpResult.transportError "io")
        "osrs" "5m" (some ⟨1700000000, 5, by decide⟩) := by
  have h := C7_priceData_url_and_timestamp (NewClient "w7")
    (fun _ => HttpResult.transportError "io")
    (fun _ => HttpResult.transportError "io") "osrs" "5m"
    ⟨1700000000, 5, by decide⟩ (some ⟨1700000000, 5, by decide⟩)
    1700000000 5 999999999 (by decide) (by decide) (Or.inl rfl)
  refine ⟨?_, h.2.1, ?_, h.2.2.2.1, h.2.2.2.2 rfl⟩
  · rw [h.1]
    rfl
  · rw [h.2.2.1]
    rfl

